import Mathlib

/-!
Verification of the LINE LIVE extractor (`youtube_dl/extractor/linelive.py`)
against its specification.

The extractor is shallowly embedded: Python JSON-ish values become the
inductive `PyVal`, the single method `LineLiveIE._real_extract` becomes the
function `realExtract`, and every interaction with the outside world (HTTP
responses, the resolved URL after redirects, the embedded page attribute,
the M3U8 parser's output, the current time used by live titles) is a field
of an explicit environment `Env`.  Network requests issued during a run are
recorded in an ordered trace of `NetReq` values.  Failure outcomes are the
inductive `ExtractErr`, separating the extractor's own
`raise ExtractorError(...)` statements (`ExtractErr.extractorError`, which
carries the `expected` flag) from errors raised inside framework helpers
(`ExtractErr.frameworkError`) and from Python runtime exceptions such as
`AttributeError`/`AssertionError`/`TypeError` (`ExtractErr.crash`).
-/

namespace LineLive

/-- Python values as produced by `json.loads`, plus `bool` results and
`None`.  JSON `null` and Python `None` are both `PyVal.none`, exactly as in
Python where they are the same object. -/
inductive PyVal where
  | none : PyVal
  | bool (b : Bool) : PyVal
  | int (n : Int) : PyVal
  | str (s : String) : PyVal
  | list (xs : List PyVal) : PyVal
  | dict (kvs : List (String × PyVal)) : PyVal
deriving Repr

/-- Python truthiness (`bool(v)`): `None`, `False`, `0`, `''`, `[]` and
`{}` are falsy, everything else the extractor can see is truthy. -/
def pyTruthy : PyVal → Bool
  | .none => false
  | .bool b => b
  | .int n => n != 0
  | .str s => s != ""
  | .list [] => false
  | .list (_ :: _) => true
  | .dict [] => false
  | .dict (_ :: _) => true

/-- `d[k]`-style association lookup with Python `dict.get` semantics:
an absent key yields `None`, which Python cannot distinguish from a stored
`null`.  JSON objects have unique keys, so first-match lookup is exact. -/
def dictLookup : List (String × PyVal) → String → PyVal
  | [], _ => .none
  | (k', v) :: rest, k => if k' = k then v else dictLookup rest k

/-- Raw association lookup distinguishing an absent key (`Option.none`,
a `KeyError` for subscription) from a stored value. -/
def dictFind : List (String × PyVal) → String → Option PyVal
  | [], _ => Option.none
  | (k', v) :: rest, k => if k' = k then Option.some v else dictFind rest k

/-- Python `v == "lit"` where the right-hand side is a string literal:
true exactly when `v` is that string (numbers and booleans never equal a
string in Python 3). -/
def pyEqStr : PyVal → String → Bool
  | .str s, t => s = t
  | _, _ => false

mutual
/-- Python `repr(v)`, used by `str()` on containers and by `'%s' % v`.
String escaping inside `repr` is elided (the extractor never relies on
it). -/
def pyRepr : PyVal → String
  | .none => "None"
  | .bool b => if b then "True" else "False"
  | .int n => toString n
  | .str s => "'" ++ s ++ "'"
  | .list xs => "[" ++ pyReprList xs ++ "]"
  | .dict kvs => "\x7b" ++ pyReprDict kvs ++ "\x7d"

def pyReprList : List PyVal → String
  | [] => ""
  | [x] => pyRepr x
  | x :: y :: xs => pyRepr x ++ ", " ++ pyReprList (y :: xs)

def pyReprDict : List (String × PyVal) → String
  | [] => ""
  | [(k, v)] => "'" ++ k ++ "': " ++ pyRepr v
  | (k, v) :: p :: xs => "'" ++ k ++ "': " ++ pyRepr v ++ ", " ++ pyReprDict (p :: xs)
end

/-- Python `str(v)` (hence `'%s' % v`): the string itself for strings,
`repr`-style rendering otherwise (`None`, `True`, numbers, containers). -/
def pyStr : PyVal → String
  | .str s => s
  | v => pyRepr v

/-- Errors that can terminate a run of `_real_extract`. -/
inductive ExtractErr where
  /-- An `ExtractorError` raised by one of the extractor's own `raise`
  statements, with its message and `expected` flag. -/
  | extractorError (msg : String) (expected : Bool) : ExtractErr
  /-- An `ExtractorError` raised inside a framework helper called by the
  extractor (`RegexNotFoundError` from `_search_regex`, a JSON parse
  failure from `_parse_json`, a fatal download failure inside
  `_extract_m3u8_formats`, or `_sort_formats` on an empty list); these all
  carry `expected=False`. -/
  | frameworkError (msg : String) : ExtractErr
  /-- A Python runtime exception (`AttributeError`, `AssertionError`,
  `TypeError`) escaping the extractor. -/
  | crash (desc : String) : ExtractErr
deriving Repr

abbrev Res (α : Type) := Except ExtractErr α

/-- `leadsList needle hay`: `needle` is a leading segment of `hay`. -/
def leadsList : List Char → List Char → Bool
  | [], _ => true
  | _ :: _, [] => false
  | c :: cs, d :: ds => c = d && leadsList cs ds

/-- Python `needle in hay` on strings: substring occurrence. -/
def containsSub (hay needle : List Char) : Bool :=
  match hay with
  | [] => leadsList needle []
  | _ :: rest => leadsList needle hay || containsSub rest needle

/-- Python `"item" in v` membership test: key lookup on dicts, element
equality on lists, substring test on strings, `TypeError` otherwise.
Used by `_real_extract` only with the literal `'item'`. -/
def pyContainsStr (v : PyVal) (k : String) : Res Bool :=
  match v with
  | .dict kvs => .ok (kvs.any (fun p => p.1 = k))
  | .list xs => .ok (xs.any (fun x => pyEqStr x k))
  | .str s => .ok (containsSub s.toList k.toList)
  | _ => .error (.crash "TypeError: argument is not iterable")

/-- Python `v.get(k)`: defined on dicts, `AttributeError` otherwise
(including on `None`). -/
def pyGet (v : PyVal) (k : String) : Res PyVal :=
  match v with
  | .dict kvs => .ok (dictLookup kvs k)
  | _ => .error (.crash "AttributeError: object has no attribute get")

/-! ## The `_VALID_URL` pattern

`_VALID_URL` is
`https?://live.line.me/channels/(?P<channel_id>\d+)/(?P<link_type>broadcast|upcoming)/(?P<id>\d+)`.
`matchVALIDAt` matches it at the start of a character list and returns the
three named groups; an unescaped `.` matches any character except a
newline, `\d` is modelled as an ASCII digit, and `\d+` is greedy (since
each digit run is followed by `/` or the end of the pattern, the greedy
match is the maximal digit run).  `searchVALID` is `re.search`: the match
at the leftmost position where one exists.  `re.match` (used by
`_match_id` and by the dispatcher's `suitable`) is `matchVALIDAt` at
position 0. -/

/-- Consume a literal: `dropLit lit s` strips `lit` from the front of `s`. -/
def dropLit : List Char → List Char → Option (List Char)
  | [], s => some s
  | _ :: _, [] => none
  | c :: cs, d :: ds => if c = d then dropLit cs ds else none

/-- Tail of the pattern after the link type: `/(?P<id>\d+)`. -/
def matchIdTail (cid : List Char) (lt : String) (s : List Char) :
    Option (String × String × String) :=
  match dropLit [ '/' ] s with
  | none => none
  | some s1 =>
    let bid := s1.takeWhile Char.isDigit
    if bid.isEmpty then none
    else some (String.mk cid, lt, String.mk bid)

/-- The regex `s?`: consume a leading `s` when present (the next pattern
character is `:`, so the greedy optional never needs backtracking). -/
def dropOptS : List Char → List Char
  | [] => []
  | c :: r => if c = 's' then r else c :: r

/-- Match `_VALID_URL` at the start of `s`, returning the groups
(`channel_id`, `link_type`, `id`). -/
def matchVALIDAt (s : List Char) : Option (String × String × String) :=
  match dropLit ("http".toList) s with
  | none => none
  | some s1 =>
    let s2 := dropOptS s1
    match dropLit ("://live".toList) s2 with
    | none => none
    | some s3 =>
      match s3 with
      | [] => none
      | c1 :: s4 =>
        if c1 = '\n' then none else
        match dropLit ("line".toList) s4 with
        | none => none
        | some s5 =>
          match s5 with
          | [] => none
          | c2 :: s6 =>
            if c2 = '\n' then none else
            match dropLit ("me/channels/".toList) s6 with
            | none => none
            | some s7 =>
              let cid := s7.takeWhile Char.isDigit
              let s8 := s7.dropWhile Char.isDigit
              if cid.isEmpty then none else
              match dropLit [ '/' ] s8 with
              | none => none
              | some s9 =>
                match dropLit ("broadcast".toList) s9 with
                | some s10 => matchIdTail cid "broadcast" s10
                | none =>
                  match dropLit ("upcoming".toList) s9 with
                  | some s10 => matchIdTail cid "upcoming" s10
                  | none => none

/-- `re.search` with `_VALID_URL`: try every position left to right. -/
def searchVALID (s : List Char) : Option (String × String × String) :=
  match s with
  | [] => matchVALIDAt []
  | _ :: rest =>
    match matchVALIDAt s with
    | some g => some g
    | none => searchVALID rest

/-! ## Framework utilities used by the extractor

These helpers live in the host framework (`youtube_dl/utils.py` and
`youtube_dl/extractor/common.py`), which is outside the repository slice;
each is modelled from its documented semantics. -/

/-- Strip leading and trailing whitespace, as Python `int(str)` does. -/
def stripSpaces (l : List Char) : List Char :=
  ((l.dropWhile Char.isWhitespace).reverse.dropWhile Char.isWhitespace).reverse

/-- Decimal value of a digit list. -/
def digitsToNat (l : List Char) : Nat :=
  l.foldl (fun a c => a * 10 + (c.toNat - 48)) 0

/-- Python `int(s)` on a string: optional surrounding whitespace, an
optional sign, then a nonempty run of digits; anything else raises
`ValueError` (here: `Option.none`). -/
def parsePyInt (s : String) : Option Int :=
  let core : List Char → Option Int := fun ds =>
    if !ds.isEmpty && ds.all Char.isDigit then some ((digitsToNat ds : Nat) : Int)
    else Option.none
  match stripSpaces s.toList with
  | '-' :: ds => (core ds).map (fun n => -n)
  | '+' :: ds => core ds
  | ds => core ds

/-- Modelled from the spec: the host framework's `int_or_none` utility
(not under `src/`): with default arguments it maps `None` and `''` to
`None`, keeps integers (booleans count as 0/1 via `int()`), parses numeric
strings, and returns `None` whenever `int(v)` raises. -/
def int_or_none : PyVal → Option Int
  | .none => Option.none
  | .bool b => some (if b then 1 else 0)
  | .int n => some n
  | .str s => if s = "" then Option.none else parsePyInt s
  | .list _ => Option.none
  | .dict _ => Option.none

/-- `int_or_none` with the result re-embedded as a Python value. -/
def intOrNonePy (v : PyVal) : PyVal :=
  match int_or_none v with
  | Option.some n => .int n
  | Option.none => .none

/-- Modelled from the spec: the host framework's `try_get(src, f, str)`
for a getter `lambda x: x[k1][k2]`: returns the value when both
subscriptions succeed and the result is a string, and `None` when any
`KeyError`/`TypeError`/`IndexError` occurs or the result is not a
string. -/
def tryGetStr (v : PyVal) (k1 k2 : String) : PyVal :=
  match v with
  | .dict kvs =>
    match dictFind kvs k1 with
    | Option.some (.dict kvs2) =>
      match dictFind kvs2 k2 with
      | Option.some (.str s) => .str s
      | _ => .none
    | _ => .none
  | _ => .none

/-- Python `a or b`: `a` when truthy, else `b`. -/
def pyOr (a b : PyVal) : PyVal := if pyTruthy a then a else b

/-- An optional string (an `_og_search_*` result) as a Python value. -/
def optStrToPy : Option String → PyVal
  | Option.some s => .str s
  | Option.none => .none

/-! ## The environment

Everything `_real_extract` observes from the outside world. -/

/-- The external world for one extraction run. -/
structure Env where
  /-- `req.url`: the final URL after `_request_webpage` followed
  redirects. -/
  resolvedUrl : String
  /-- Parsed body of the broadcast-API `_download_json` call;
  `Option.none` is a failed download (with `fatal=False` the helper
  returns `False`). -/
  broadcastApiResp : Option PyVal
  /-- The `data-broadcast="..."` attribute value found in the page by
  `_html_search_regex` (after entity cleanup), or `Option.none` when the
  page has none and the default `'null'` is used. -/
  dataBroadcast : Option String
  /-- `_parse_json` on the attribute text: the parsed value, or
  `Option.none` when parsing fails (the helper then raises, `fatal`
  defaulting to true). -/
  parseJson : String → Option PyVal
  /-- Parsed body of the LSS-API `_download_json` call; `Option.none` is a
  failed download (`False` with `fatal=False`). -/
  lssResp : Option PyVal
  /-- `_extract_m3u8_formats manifest_url is_live`: the format list the
  external M3U8 parser produces, or `Option.none` when the manifest
  download fails (the helper then raises, `fatal` defaulting to true). -/
  m3u8 : PyVal → Bool → Option (List PyVal)
  /-- `_og_search_title` on the page (`fatal=False`: `None` if absent). -/
  ogTitle : Option String
  /-- `_og_search_description` on the page. -/
  ogDescription : Option String
  /-- `_og_search_thumbnail` on the page. -/
  ogThumbnail : Option String
  /-- The timestamp string `_live_title` appends to a live title. -/
  nowStr : String

/-- A network request issued during a run, tagged by call site. -/
inductive NetReq where
  /-- `_request_webpage` on the input URL. -/
  | page (url : String) : NetReq
  /-- `_download_json` on the broadcast API URL. -/
  | broadcastApi (url : String) : NetReq
  /-- `_download_json` on the LSS API URL. -/
  | lssApi (url : String) : NetReq
  /-- The manifest download inside `_extract_m3u8_formats`. -/
  | m3u8 (manifestUrl : PyVal) : NetReq
deriving Repr

/-- Sequencing for computations that may fail and that log requests:
on error the requests made so far are kept. -/
def seqT {α β : Type} (x : Res α × List NetReq) (f : α → Res β × List NetReq) :
    Res β × List NetReq :=
  match x with
  | (.error e, t) => (.error e, t)
  | (.ok a, t) =>
    let y := f a
    (y.1, t ++ y.2)

/-! ## The stages of `_real_extract` -/

/-- The redirect-resolution step: when the link type of the input URL is
`upcoming`, re-read the link type from the resolved URL with
`_search_regex` (raising `RegexNotFoundError` when the pattern does not
occur), require it to be `broadcast` (else
`ExtractorError('Broadcast not found', expected=True)`), and re-extract
the broadcast id with `_match_id` (`re.match` anchored at the start;
its `assert` fails when there is no match there).  Otherwise the original
broadcast id is kept. -/
def effBroadcastId (env : Env) (lt bid0 : String) : Res String :=
  if lt = "upcoming" then
    match searchVALID env.resolvedUrl.toList with
    | Option.none => .error (.frameworkError "Unable to extract link_type")
    | Option.some (_, lt1, _) =>
      if lt1 ≠ "broadcast" then .error (.extractorError "Broadcast not found" true)
      else
        match matchVALIDAt env.resolvedUrl.toList with
        | Option.none => .error (.crash "AssertionError: no match in match_id")
        | Option.some (_, _, bid1) => .ok bid1
  else .ok bid0

/-- The broadcast API URL. -/
def broadcastApiUrl (channel_id broadcast_id : String) : String :=
  "https://live-api.line-apps.com/app/v2/channel/" ++ channel_id ++
    "/broadcast/" ++ broadcast_id

/-- The value of the `broadcast_info` variable right after the API
`_download_json` call: the parsed body, or `False` on failure. -/
def apiRespVal (env : Env) : PyVal :=
  match env.broadcastApiResp with
  | Option.some v => v
  | Option.none => .bool false

/-- The fallback: `_html_search_regex(r'data-broadcast="([^"]+)"', ...,
default='null')` followed by `_parse_json`.  When the attribute is absent
the default `'null'` parses to `None`; when present, a parse failure
raises. -/
def dataBroadcastInfo (env : Env) : Res PyVal :=
  match env.dataBroadcast with
  | Option.none => .ok .none
  | Option.some s =>
    match env.parseJson s with
    | Option.some v => .ok v
    | Option.none => .error (.frameworkError "Failed to parse JSON")

/-- `if not broadcast_info or 'item' not in broadcast_info:` — keep the
API result when it is truthy and has an `item` key, otherwise take the
page fallback (the membership test can itself raise `TypeError` on a
truthy non-container). -/
def lookupBroadcastInfo (env : Env) : Res PyVal :=
  let api := apiRespVal env
  if pyTruthy api then
    match pyContainsStr api "item" with
    | .error e => .error e
    | .ok true => .ok api
    | .ok false => dataBroadcastInfo env
  else dataBroadcastInfo env

/-- `if broadcast_info is None or 'item' not in broadcast_info: raise
ExtractorError('Broadcast not found', expected=True)`, then
`broadcast_info.get('item')` demands a dict (`AttributeError`
otherwise). -/
def checkBroadcastInfo (binfo : PyVal) : Res (List (String × PyVal)) :=
  match binfo with
  | .none => .error (.extractorError "Broadcast not found" true)
  | v =>
    match pyContainsStr v "item" with
    | .error e => .error e
    | .ok false => .error (.extractorError "Broadcast not found" true)
    | .ok true =>
      match v with
      | .dict kvs => .ok kvs
      | _ => .error (.crash "AttributeError: object has no attribute get")

/-- `item = broadcast_info.get('item')` followed by the first
`item.get(...)` call, which raises `AttributeError` when `item` is not a
dict. -/
def getItemDict (bkvs : List (String × PyVal)) : Res (List (String × PyVal)) :=
  match dictLookup bkvs "item" with
  | .dict ikvs => .ok ikvs
  | _ => .error (.crash "AttributeError: object has no attribute get")

/-- `hls_urls is None or hls_urls.get('abr') is None`: true when the
candidate is `None` or has no usable `abr` entry; `AttributeError` when it
is neither `None` nor a dict. -/
def abrMissing (h : PyVal) : Res Bool :=
  match h with
  | .none => .ok true
  | .dict kvs =>
    .ok (match dictLookup kvs "abr" with
      | .none => true
      | _ => false)
  | _ => .error (.crash "AttributeError: object has no attribute get")

/-- The LSS API URL: endpoint `live` for a live broadcast and `vod`
otherwise, with `contentId` set to the broadcast info's `lsaPath`
(`update_url_query` is modelled from the spec as appending the
`str()`-rendered value; percent-encoding is elided). -/
def lssUrl (bkvs : List (String × PyVal)) (is_live : Bool) : String :=
  "https://lssapi.line-apps.com/v1/" ++ (if is_live then "live" else "vod") ++
    "/playInfo?contentId=" ++ pyStr (dictLookup bkvs "lsaPath")

/-- `hls_urls = lss_info.get('playUrls') if lss_info else None` after the
LSS `_download_json` call (`False` on failure). -/
def lssHLSUrls (env : Env) : Res PyVal :=
  let lss := match env.lssResp with
    | Option.some v => v
    | Option.none => .bool false
  if pyTruthy lss then pyGet lss "playUrls" else .ok .none

/-- The three-source manifest chain: the broadcast info's `liveHLSURLs`,
then its `archivedHLSURLs`, then the LSS API — each later source consulted
only when the previous candidate is `None` or lacks `abr`.  The LSS
request is logged when (and only when) it is made. -/
def resolveHLSUrls (env : Env) (bkvs : List (String × PyVal)) (is_live : Bool) :
    Res PyVal × List NetReq :=
  let h1 := dictLookup bkvs "liveHLSURLs"
  match abrMissing h1 with
  | .error e => (.error e, [])
  | .ok false => (.ok h1, [])
  | .ok true =>
    let h2 := dictLookup bkvs "archivedHLSURLs"
    match abrMissing h2 with
    | .error e => (.error e, [])
    | .ok false => (.ok h2, [])
    | .ok true =>
      let u := lssUrl bkvs is_live
      match lssHLSUrls env with
      | .error e => (.error e, [NetReq.lssApi u])
      | .ok h3 => (.ok h3, [NetReq.lssApi u])

/-- The final `abr` check: when every source failed, raise
`ExtractorError('Broadcast has an archive status of %s' % archive_status,
expected=True)`; otherwise `manifest_url = hls_urls.get('abr')`. -/
def manifestOrErr (ikvs : List (String × PyVal)) (h : PyVal) : Res PyVal :=
  match abrMissing h with
  | .error e => .error e
  | .ok true =>
    .error (.extractorError
      ("Broadcast has an archive status of " ++ pyStr (dictLookup ikvs "archiveStatus"))
      true)
  | .ok false => pyGet h "abr"

/-- `_extract_m3u8_formats` on the manifest URL followed by
`_sort_formats`: a failed manifest download raises inside the helper, and
`_sort_formats` raises `'No video formats found'` on an empty list.  The
framework's preference ordering is modelled from the spec as the identity
permutation, which no claim depends on. -/
def formatsStep (env : Env) (murl : PyVal) (is_live : Bool) :
    Res (List PyVal) × List NetReq :=
  match env.m3u8 murl is_live with
  | Option.none =>
    (.error (.frameworkError "Failed to download m3u8 information"), [NetReq.m3u8 murl])
  | Option.some [] =>
    (.error (.frameworkError "No video formats found"), [NetReq.m3u8 murl])
  | Option.some fs => (.ok fs, [NetReq.m3u8 murl])

/-- The normalized metadata record `_real_extract` returns. -/
structure InfoDict where
  id : String
  title : PyVal
  description : PyVal
  thumbnail : PyVal
  timestamp : PyVal
  duration : PyVal
  uploader : PyVal
  uploader_id : String
  uploader_url : String
  view_count : PyVal
  comment_count : PyVal
  formats : List PyVal
  is_live : Bool
deriving Repr

/-- The metadata block at the end of `_real_extract`: field-by-field
construction of the returned dict, including the `a or b` fallbacks to
the OpenGraph values, `int_or_none` on `createdAt`/`viewerCount`/
`chatCount`, and the `_live_title` wrap (string concatenation with the
current time, a `TypeError` on a non-string title) when live. -/
def buildInfoDict (env : Env) (channel_id video_id : String)
    (bkvs ikvs : List (String × PyVal)) (is_live : Bool)
    (formats : List PyVal) : Res InfoDict :=
  let title0 := pyOr (dictLookup ikvs "title") (optStrToPy env.ogTitle)
  let titleRes : Res PyVal :=
    if is_live then
      match title0 with
      | .str s => .ok (.str (s ++ " " ++ env.nowStr))
      | _ => .error (.crash "TypeError: can only concatenate str")
    else .ok title0
  match titleRes with
  | .error e => .error e
  | .ok title =>
    .ok {
      id := video_id
      title := title
      description := pyOr (dictLookup bkvs "description") (optStrToPy env.ogDescription)
      thumbnail := pyOr (tryGetStr (.dict ikvs) "thumbnailURLs" "large1x1")
        (optStrToPy env.ogThumbnail)
      timestamp := intOrNonePy (dictLookup ikvs "createdAt")
      duration := dictLookup ikvs "archiveDuration"
      uploader := tryGetStr (.dict ikvs) "channel" "name"
      uploader_id := channel_id
      uploader_url := "https://live.line.me/channels/" ++ channel_id
      view_count := intOrNonePy (dictLookup ikvs "viewerCount")
      comment_count := intOrNonePy (dictLookup ikvs "chatCount")
      formats := formats
      is_live := is_live }

/-- The embedding of `LineLiveIE._real_extract`: the result (or error)
together with the ordered trace of network requests. -/
def realExtract (env : Env) (url : String) : Res InfoDict × List NetReq :=
  match searchVALID url.toList with
  | Option.none => (.error (.frameworkError "Unable to extract channel_id"), [])
  | Option.some (channel_id, link_type, _) =>
    match matchVALIDAt url.toList with
    | Option.none => (.error (.crash "AssertionError: no match in match_id"), [])
    | Option.some (_, _, bid0) =>
      seqT (.ok (), [NetReq.page url]) fun _ =>
      seqT (effBroadcastId env link_type bid0, []) fun broadcast_id =>
      let video_id := channel_id ++ "_" ++ broadcast_id
      seqT (.ok (), [NetReq.broadcastApi (broadcastApiUrl channel_id broadcast_id)]) fun _ =>
      seqT (lookupBroadcastInfo env, []) fun binfo =>
      seqT (checkBroadcastInfo binfo, []) fun bkvs =>
      seqT (getItemDict bkvs, []) fun ikvs =>
      let is_live := pyEqStr (dictLookup ikvs "liveStatus") "LIVE"
      seqT (resolveHLSUrls env bkvs is_live) fun hls =>
      seqT (manifestOrErr ikvs hls, []) fun murl =>
      seqT (formatsStep env murl is_live) fun formats =>
      (buildInfoDict env channel_id video_id bkvs ikvs is_live formats, [])

/-! ## Lemmas about the URL matcher -/

theorem dropLit_some {lit : List Char} :
    ∀ {s r : List Char}, dropLit lit s = some r → s = lit ++ r := by
  induction lit with
  | nil =>
    intro s r h
    simp [dropLit] at h
    simp [h]
  | cons c cs ih =>
    intro s r h
    match s with
    | [] => simp [dropLit] at h
    | d :: ds =>
      rw [dropLit] at h
      split at h
      · rename_i hcd
        have := ih h
        simp [hcd, this]
      · exact absurd h (by simp)

theorem matchIdTail_some {cid : List Char} {lt : String} {s : List Char}
    {c t b : String} (h : matchIdTail cid lt s = some (c, t, b)) :
    c = String.mk cid ∧ t = lt ∧ b.toList ≠ [] ∧
      (∀ ch ∈ b.toList, ch.isDigit) ∧ ∃ rest, s = '/' :: (b.toList ++ rest) := by
  simp only [matchIdTail] at h
  split at h
  · simp at h
  · rename_i s1 hdrop
    split at h
    · simp at h
    · rename_i hne
      simp only [Option.some.injEq, Prod.mk.injEq] at h
      obtain ⟨hc, ht, hb⟩ := h
      have hs : s = '/' :: s1 := by simpa using dropLit_some hdrop
      refine ⟨hc.symm, ht.symm, ?_, ?_, ?_⟩
      · rw [← hb]
        intro hcon
        rw [show (String.mk (s1.takeWhile Char.isDigit)).toList
            = s1.takeWhile Char.isDigit from rfl] at hcon
        rw [hcon] at hne
        simp at hne
      · intro ch hch
        rw [← hb] at hch
        exact List.mem_takeWhile_imp hch
      · refine ⟨s1.dropWhile Char.isDigit, ?_⟩
        rw [hs, ← hb]
        rw [show (String.mk (s1.takeWhile Char.isDigit)).toList
            = s1.takeWhile Char.isDigit from rfl]
        rw [List.takeWhile_append_dropWhile Char.isDigit s1]

theorem dropOptS_decomp (s : List Char) :
    ∃ sopt, (sopt = [] ∨ sopt = [ 's' ]) ∧ s = sopt ++ dropOptS s := by
  match s with
  | [] => exact ⟨[], Or.inl rfl, rfl⟩
  | c :: r =>
    by_cases hc : c = 's'
    · subst hc
      exact ⟨[ 's' ], Or.inr rfl, by simp [dropOptS]⟩
    · exact ⟨[], Or.inl rfl, by simp [dropOptS, hc]⟩

theorem assembleVALID {s s1 s3 s4 s5 s6 s9 s10 cid : List Char} {c1 c2 : Char}
    {lit b : String} {rest : List Char}
    (hH : s = "http".toList ++ s1)
    (hL : dropOptS s1 = "://live".toList ++ s3)
    (h3 : s3 = c1 :: s4)
    (hLine : s4 = "line".toList ++ s5)
    (h5 : s5 = c2 :: s6)
    (hMe : s6 = "me/channels/".toList ++ (cid ++ '/' :: s9))
    (hAlt : s9 = lit.toList ++ s10)
    (hTail : s10 = '/' :: (b.toList ++ rest)) :
    ∃ (sopt : List Char), (sopt = [] ∨ sopt = [ 's' ]) ∧
      s = "http".toList ++ sopt ++ "://live".toList ++ [c1] ++ "line".toList ++
        [c2] ++ "me/channels/".toList ++ cid ++ [ '/' ] ++
        lit.toList ++ [ '/' ] ++ b.toList ++ rest := by
  obtain ⟨sopt, hso, hs1⟩ := dropOptS_decomp s1
  refine ⟨sopt, hso, ?_⟩
  rw [hH, hs1, hL, h3, hLine, h5, hMe, hAlt, hTail]
  simp

/-- Soundness of the `_VALID_URL` matcher: a successful match at the start
of `s` decomposes `s` as an instance of the pattern
`https?://live.line.me/channels/(\d+)/(broadcast|upcoming)/(\d+)` — with
the two unescaped dots matching arbitrary non-newline characters — and the
groups are the corresponding digit runs and alternative. -/
theorem matchVALIDAt_sound {s : List Char} {c t b : String}
    (h : matchVALIDAt s = some (c, t, b)) :
    (t = "broadcast" ∨ t = "upcoming") ∧
    c.toList ≠ [] ∧ (∀ ch ∈ c.toList, ch.isDigit) ∧
    b.toList ≠ [] ∧ (∀ ch ∈ b.toList, ch.isDigit) ∧
    ∃ (sopt : List Char) (c1 c2 : Char) (rest : List Char),
      (sopt = [] ∨ sopt = [ 's' ]) ∧ ¬ c1 = '\n' ∧ ¬ c2 = '\n' ∧
      s = "http".toList ++ sopt ++ "://live".toList ++ [c1] ++ "line".toList ++
        [c2] ++ "me/channels/".toList ++ c.toList ++ [ '/' ] ++ t.toList ++
        [ '/' ] ++ b.toList ++ rest := by
  simp only [matchVALIDAt] at h
  split at h <;> rename_i hH
  · simp at h
  · rename_i s1
    split at h <;> rename_i hL
    · simp at h
    · rename_i s3
      split at h
      · simp at h
      · rename_i c1 s4
        split at h <;> rename_i hc1
        · simp at h
        · split at h <;> rename_i hLine
          · simp at h
          · rename_i s5
            split at h
            · simp at h
            · rename_i c2 s6
              split at h <;> rename_i hc2
              · simp at h
              · split at h <;> rename_i hMe
                · simp at h
                · rename_i s7
                  split at h <;> rename_i hcid
                  · simp at h
                  · split at h <;> rename_i hSl
                    · simp at h
                    · rename_i s9
                      have hcne : s7.takeWhile Char.isDigit ≠ [] := by
                        intro hcon
                        rw [hcon] at hcid
                        simp at hcid
                      have h7 : s7 = s7.takeWhile Char.isDigit ++ '/' :: s9 := by
                        conv_lhs => rw [← List.takeWhile_append_dropWhile Char.isDigit s7]
                        rw [show List.dropWhile Char.isDigit s7 = '/' :: s9 from by
                          simpa using dropLit_some hSl]
                      have hMe' : s6 = "me/channels/".toList ++
                          (s7.takeWhile Char.isDigit ++ '/' :: s9) := by
                        rw [dropLit_some hMe]
                        conv_lhs => rw [h7]
                      split at h <;> rename_i hAlt
                      · rename_i s10
                        obtain ⟨hc, ht, hbne, hbdig, rest, hTail⟩ := matchIdTail_some h
                        have hctl : c.toList = s7.takeWhile Char.isDigit := by
                          rw [hc]
                          exact rfl
                        refine ⟨Or.inl ht, ?_, ?_, hbne, hbdig, ?_⟩
                        · rw [hctl]; exact hcne
                        · intro ch hch
                          rw [hctl] at hch
                          exact List.mem_takeWhile_imp hch
                        · obtain ⟨sopt, hso, hdec⟩ := assembleVALID (dropLit_some hH)
                            (dropLit_some hL) rfl (dropLit_some hLine) rfl
                            hMe' (dropLit_some hAlt) hTail
                          exact ⟨sopt, c1, c2, rest, hso, hc1, hc2, by
                            rw [hctl, ht]; exact hdec⟩
                      · split at h <;> rename_i hAlt2
                        · rename_i s10
                          obtain ⟨hc, ht, hbne, hbdig, rest, hTail⟩ := matchIdTail_some h
                          have hctl : c.toList = s7.takeWhile Char.isDigit := by
                            rw [hc]
                            exact rfl
                          refine ⟨Or.inr ht, ?_, ?_, hbne, hbdig, ?_⟩
                          · rw [hctl]; exact hcne
                          · intro ch hch
                            rw [hctl] at hch
                            exact List.mem_takeWhile_imp hch
                          · obtain ⟨sopt, hso, hdec⟩ := assembleVALID (dropLit_some hH)
                              (dropLit_some hL) rfl (dropLit_some hLine) rfl
                              hMe' (dropLit_some hAlt2) hTail
                            exact ⟨sopt, c1, c2, rest, hso, hc1, hc2, by
                              rw [hctl, ht]; exact hdec⟩
                        · simp at h

/-- `re.match` at position 0 succeeding forces `re.search` to return the
same (leftmost) match. -/
theorem searchVALID_of_matchAt {s : List Char} {g : String × String × String}
    (h : matchVALIDAt s = some g) : searchVALID s = some g := by
  match s with
  | [] => simpa [searchVALID] using h
  | x :: rest => simp [searchVALID, h]

/-! ## Sequencing lemmas -/

theorem seqT_ok {α β : Type} {x : Res α × List NetReq} {f : α → Res β × List NetReq}
    {b : β} {tr : List NetReq} (h : seqT x f = (.ok b, tr)) :
    ∃ a t1 t2, x = (.ok a, t1) ∧ f a = (.ok b, t2) ∧ tr = t1 ++ t2 := by
  obtain ⟨rx, tx⟩ := x
  cases rx with
  | error e => simp [seqT] at h
  | ok a =>
    simp only [seqT, Prod.mk.injEq] at h
    refine ⟨a, tx, (f a).2, rfl, ?_, h.2.symm⟩
    rw [← h.1]

theorem seqT_fst_err {α β : Type} {x : Res α × List NetReq}
    {f : α → Res β × List NetReq} {e : ExtractErr}
    (h : (seqT x f).1 = .error e) :
    x.1 = .error e ∨ ∃ a, x.1 = .ok a ∧ (f a).1 = .error e := by
  obtain ⟨rx, tx⟩ := x
  cases rx with
  | error e' =>
    simp only [seqT] at h
    refine Or.inl ?_
    simpa using h
  | ok a =>
    right
    exact ⟨a, rfl, by simpa [seqT] using h⟩

/-! ## Stage lemmas -/

theorem effBroadcastId_ee {env : Env} {lt bid0 m : String} {e : Bool}
    (h : effBroadcastId env lt bid0 = .error (.extractorError m e)) :
    m = "Broadcast not found" ∧ e = true := by
  unfold effBroadcastId at h
  split at h
  · split at h
    · simp at h
    · split at h
      · simp only [Except.error.injEq, ExtractErr.extractorError.injEq] at h
        exact ⟨h.1.symm, h.2.symm⟩
      · split at h <;> simp at h
  · simp at h

theorem pyContainsStr_err {v : PyVal} {k : String} {er : ExtractErr}
    (h : pyContainsStr v k = .error er) : ∃ d, er = .crash d := by
  unfold pyContainsStr at h
  split at h <;> simp at h
  exact ⟨_, h.symm⟩

theorem dataBroadcastInfo_no_ee {env : Env} {m : String} {e : Bool}
    (h : dataBroadcastInfo env = .error (.extractorError m e)) : False := by
  unfold dataBroadcastInfo at h
  split at h
  · simp at h
  · split at h <;> simp at h

theorem lookupBroadcastInfo_no_ee {env : Env} {m : String} {e : Bool}
    (h : lookupBroadcastInfo env = .error (.extractorError m e)) : False := by
  unfold lookupBroadcastInfo at h
  simp only [] at h
  split at h
  · split at h
    · rename_i e' heq
      simp only [Except.error.injEq] at h
      obtain ⟨d, hd⟩ := pyContainsStr_err heq
      rw [h] at hd
      simp at hd
    · simp at h
    · exact dataBroadcastInfo_no_ee h
  · exact dataBroadcastInfo_no_ee h

theorem checkBroadcastInfo_ee {binfo : PyVal} {m : String} {e : Bool}
    (h : checkBroadcastInfo binfo = .error (.extractorError m e)) :
    m = "Broadcast not found" ∧ e = true := by
  unfold checkBroadcastInfo at h
  split at h
  · simp only [Except.error.injEq, ExtractErr.extractorError.injEq] at h
    exact ⟨h.1.symm, h.2.symm⟩
  · split at h
    · rename_i heq
      unfold pyContainsStr at heq
      split at heq <;> simp_all
    · simp only [Except.error.injEq, ExtractErr.extractorError.injEq] at h
      exact ⟨h.1.symm, h.2.symm⟩
    · split at h <;> simp at h

theorem checkBroadcastInfo_ok {binfo : PyVal} {bkvs : List (String × PyVal)}
    (h : checkBroadcastInfo binfo = .ok bkvs) : binfo = .dict bkvs := by
  unfold checkBroadcastInfo at h
  split at h
  · simp at h
  · split at h
    · simp at h
    · simp at h
    · split at h
      · simp at h
        simp [h]
      · simp at h

theorem getItemDict_no_ee {bkvs : List (String × PyVal)} {m : String} {e : Bool}
    (h : getItemDict bkvs = .error (.extractorError m e)) : False := by
  unfold getItemDict at h
  split at h <;> simp at h

theorem getItemDict_ok {bkvs ikvs : List (String × PyVal)}
    (h : getItemDict bkvs = .ok ikvs) : dictLookup bkvs "item" = .dict ikvs := by
  unfold getItemDict at h
  split at h
  · rename_i heq
    simp at h
    rw [heq, h]
  · simp at h

theorem abrMissing_no_ee {v : PyVal} {m : String} {e : Bool}
    (h : abrMissing v = .error (.extractorError m e)) : False := by
  unfold abrMissing at h
  split at h <;> simp at h

theorem lssHLSUrls_no_ee {env : Env} {m : String} {e : Bool}
    (h : lssHLSUrls env = .error (.extractorError m e)) : False := by
  unfold lssHLSUrls at h
  simp only [] at h
  split at h
  · unfold pyGet at h
    split at h <;> simp at h
  · simp at h

theorem resolveHLSUrls_no_ee {env : Env} {bkvs : List (String × PyVal)}
    {il : Bool} {m : String} {e : Bool}
    (h : (resolveHLSUrls env bkvs il).1 = .error (.extractorError m e)) : False := by
  unfold resolveHLSUrls at h
  simp only [] at h
  split at h
  · rename_i e1 h1
    simp only [Except.error.injEq] at h
    exact abrMissing_no_ee (h ▸ h1)
  · simp at h
  · split at h
    · rename_i e2 h2
      simp only [Except.error.injEq] at h
      exact abrMissing_no_ee (h ▸ h2)
    · simp at h
    · split at h
      · rename_i e3 h3
        simp only [Except.error.injEq] at h
        exact lssHLSUrls_no_ee (h ▸ h3)
      · simp at h

theorem resolveHLSUrls_trace (env : Env) (bkvs : List (String × PyVal)) (il : Bool) :
    (resolveHLSUrls env bkvs il).2 = [] ∨
      (resolveHLSUrls env bkvs il).2 = [NetReq.lssApi (lssUrl bkvs il)] := by
  unfold resolveHLSUrls
  simp only []
  cases h1 : abrMissing (dictLookup bkvs "liveHLSURLs") with
  | error e => simp [h1]
  | ok b1 =>
    cases b1
    · simp [h1]
    · cases h2 : abrMissing (dictLookup bkvs "archivedHLSURLs") with
      | error e => simp [h1, h2]
      | ok b2 =>
        cases b2
        · simp [h1, h2]
        · cases h3 : lssHLSUrls env <;> simp [h1, h2, h3]

theorem manifestOrErr_ee {ikvs : List (String × PyVal)} {hls : PyVal}
    {m : String} {e : Bool}
    (h : manifestOrErr ikvs hls = .error (.extractorError m e)) :
    (∃ s, m = "Broadcast has an archive status of " ++ s) ∧ e = true := by
  unfold manifestOrErr at h
  split at h
  · rename_i e' h1
    simp only [Except.error.injEq] at h
    exact (abrMissing_no_ee (h ▸ h1)).elim
  · simp only [Except.error.injEq, ExtractErr.extractorError.injEq] at h
    exact ⟨⟨pyStr (dictLookup ikvs "archiveStatus"), h.1.symm⟩, h.2.symm⟩
  · unfold pyGet at h
    split at h <;> simp at h

theorem formatsStep_no_ee {env : Env} {murl : PyVal} {il : Bool} {m : String} {e : Bool}
    (h : (formatsStep env murl il).1 = .error (.extractorError m e)) : False := by
  unfold formatsStep at h
  split at h <;> simp at h

theorem formatsStep_ok {env : Env} {murl : PyVal} {il : Bool}
    {fmts : List PyVal} {tr : List NetReq}
    (h : formatsStep env murl il = (.ok fmts, tr)) :
    env.m3u8 murl il = some fmts ∧ fmts ≠ [] ∧ tr = [NetReq.m3u8 murl] := by
  cases hm : env.m3u8 murl il with
  | none =>
    unfold formatsStep at h
    rw [hm] at h
    simp at h
  | some fs =>
    cases fs with
    | nil =>
      unfold formatsStep at h
      rw [hm] at h
      simp at h
    | cons a as =>
      unfold formatsStep at h
      rw [hm] at h
      simp only [Prod.mk.injEq, Except.ok.injEq] at h
      refine ⟨?_, ?_, h.2.symm⟩
      · rw [← h.1]
      · rw [← h.1]
        simp

theorem buildInfoDict_no_ee {env : Env} {cid vid : String}
    {bkvs ikvs : List (String × PyVal)} {il : Bool} {fmts : List PyVal}
    {m : String} {e : Bool}
    (h : buildInfoDict env cid vid bkvs ikvs il fmts = .error (.extractorError m e)) :
    False := by
  unfold buildInfoDict at h
  simp only [] at h
  split at h
  · rename_i e' heq
    simp only [Except.error.injEq] at h
    rw [h] at heq
    split at heq
    all_goals first
    | simp at heq
    | (split at heq <;> simp at heq)
  · simp at h

/-! ## Master lemmas about whole runs -/

/-- Inversion for a successful run: every stage succeeded, and the result,
identity and trace are determined by the stage outcomes. -/
theorem realExtract_ok_inversion {env : Env} {url : String} {r : InfoDict}
    {tr : List NetReq} (h : realExtract env url = (.ok r, tr)) :
    ∃ (c lt b0 bid : String) (bkvs ikvs : List (String × PyVal))
      (hls murl : PyVal) (lssTr : List NetReq) (fmts : List PyVal),
      matchVALIDAt url.toList = some (c, lt, b0) ∧
      effBroadcastId env lt b0 = .ok bid ∧
      lookupBroadcastInfo env = .ok (.dict bkvs) ∧
      dictLookup bkvs "item" = .dict ikvs ∧
      resolveHLSUrls env bkvs (pyEqStr (dictLookup ikvs "liveStatus") "LIVE") =
        (.ok hls, lssTr) ∧
      manifestOrErr ikvs hls = .ok murl ∧
      env.m3u8 murl (pyEqStr (dictLookup ikvs "liveStatus") "LIVE") = some fmts ∧
      fmts ≠ [] ∧
      buildInfoDict env c (c ++ "_" ++ bid) bkvs ikvs
        (pyEqStr (dictLookup ikvs "liveStatus") "LIVE") fmts = .ok r ∧
      tr = NetReq.page url :: NetReq.broadcastApi (broadcastApiUrl c bid) ::
        (lssTr ++ [NetReq.m3u8 murl]) := by
  unfold realExtract at h
  split at h
  · simp at h
  · rename_i x0 hs
    rename_i c lt
    split at h
    · simp at h
    · rename_i c' lt' hm
      rename_i b0
      have hs' := searchVALID_of_matchAt hm
      rw [hs] at hs'
      simp only [Option.some.injEq, Prod.mk.injEq] at hs'
      obtain ⟨hc', hlt', hx0⟩ := hs'
      subst hc'
      subst hlt'
      subst hx0
      obtain ⟨u0, ta, tb, hA, h1, htr1⟩ := seqT_ok h
      simp only [Prod.mk.injEq, Except.ok.injEq] at hA
      obtain ⟨bid, tc, td, hB, h2, htr2⟩ := seqT_ok h1
      simp only [Prod.mk.injEq] at hB
      obtain ⟨u1, te, tf, hC, h3, htr3⟩ := seqT_ok h2
      simp only [Prod.mk.injEq, Except.ok.injEq] at hC
      obtain ⟨binfo, tg, th', hD, h4, htr4⟩ := seqT_ok h3
      simp only [Prod.mk.injEq] at hD
      obtain ⟨bkvs, ti, tj, hE, h5, htr5⟩ := seqT_ok h4
      simp only [Prod.mk.injEq] at hE
      obtain ⟨ikvs, tk, tl, hF, h6, htr6⟩ := seqT_ok h5
      simp only [Prod.mk.injEq] at hF
      obtain ⟨hls, tm', tn, hG, h7, htr7⟩ := seqT_ok h6
      obtain ⟨murl, tp, tq, hH, h8, htr8⟩ := seqT_ok h7
      simp only [Prod.mk.injEq] at hH
      obtain ⟨fmts, tu, tv, hI, h9, htr9⟩ := seqT_ok h8
      simp only [Prod.mk.injEq, Except.ok.injEq] at h9
      obtain ⟨hbuild, htv⟩ := h9
      obtain ⟨hm3u8, hfne, htrI⟩ := formatsStep_ok hI
      have hbd : binfo = .dict bkvs := checkBroadcastInfo_ok hE.1
      subst hbd
      refine ⟨c, lt, x0, bid, bkvs, ikvs, hls, murl, tm', fmts,
        hm, hB.1, hD.1, getItemDict_ok hF.1, hG, hH.1, hm3u8, hfne, hbuild, ?_⟩
      rw [htr1, ← hA.2, htr2, ← hB.2, htr3, ← hC.2, htr4, ← hD.2, htr5, ← hE.2,
        htr6, ← hF.2, htr7, htr8, ← hH.2, htr9, htrI, ← htv]
      simp

/-- Every `ExtractorError` raised by the extractor's own `raise`
statements carries `expected=True` and one of the two user-facing
messages. -/
theorem realExtract_expected_err {env : Env} {url : String} {m : String} {e : Bool}
    (h : (realExtract env url).1 = .error (.extractorError m e)) :
    e = true ∧ (m = "Broadcast not found" ∨
      ∃ s, m = "Broadcast has an archive status of " ++ s) := by
  unfold realExtract at h
  split at h
  · simp at h
  · split at h
    · simp at h
    · rcases seqT_fst_err h with h' | ⟨u0, _, h1⟩
      · simp at h'
      · rcases seqT_fst_err h1 with h' | ⟨bid, hbid, h2⟩
        · have he := effBroadcastId_ee (by simpa using h')
          exact ⟨he.2, Or.inl he.1⟩
        · rcases seqT_fst_err h2 with h' | ⟨u1, _, h3⟩
          · simp at h'
          · rcases seqT_fst_err h3 with h' | ⟨binfo, hbinfo, h4⟩
            · exact (lookupBroadcastInfo_no_ee (by simpa using h')).elim
            · rcases seqT_fst_err h4 with h' | ⟨bkvs, hbkvs, h5⟩
              · have he := checkBroadcastInfo_ee (by simpa using h')
                exact ⟨he.2, Or.inl he.1⟩
              · rcases seqT_fst_err h5 with h' | ⟨ikvs, hikvs, h6⟩
                · exact (getItemDict_no_ee (by simpa using h')).elim
                · rcases seqT_fst_err h6 with h' | ⟨hls, hhls, h7⟩
                  · exact (resolveHLSUrls_no_ee h').elim
                  · rcases seqT_fst_err h7 with h' | ⟨murl, hmurl, h8⟩
                    · have he := manifestOrErr_ee (by simpa using h')
                      exact ⟨he.2, Or.inr he.1⟩
                    · rcases seqT_fst_err h8 with h' | ⟨fmts, hfmts, h9⟩
                      · exact (formatsStep_no_ee h').elim
                      · exact (buildInfoDict_no_ee (by simpa using h9)).elim

theorem formatsStep_trace (env : Env) (murl : PyVal) (il : Bool) :
    (formatsStep env murl il).2 = [NetReq.m3u8 murl] := by
  unfold formatsStep
  split <;> simp

/-- The request trace of any run: at most one page request, then at most
one broadcast-API request, then at most one LSS request, then at most one
manifest download — in that order. -/
theorem realExtract_trace_shape (env : Env) (url : String) :
    (realExtract env url).2 = [] ∨
    (realExtract env url).2 = [NetReq.page url] ∨
    ∃ a t2, (realExtract env url).2 = NetReq.page url :: NetReq.broadcastApi a :: t2 ∧
      (t2 = [] ∨ (∃ l, t2 = [NetReq.lssApi l]) ∨ (∃ mu, t2 = [NetReq.m3u8 mu]) ∨
       (∃ l mu, t2 = [NetReq.lssApi l, NetReq.m3u8 mu])) := by
  unfold realExtract
  split
  · simp
  · split
    · simp
    · rename_i x1 c2 lt2 b0 hm
      rename_i x2 c lt b02 hs
      cases hEff : effBroadcastId env lt b0 with
      | error e => simp [seqT, hEff]
      | ok bid =>
        cases hLk : lookupBroadcastInfo env with
        | error e =>
          refine Or.inr (Or.inr ⟨broadcastApiUrl c bid, [], ?_, Or.inl rfl⟩)
          simp [seqT, hEff, hLk]
        | ok binfo =>
          cases hChk : checkBroadcastInfo binfo with
          | error e =>
            refine Or.inr (Or.inr ⟨broadcastApiUrl c bid, [], ?_, Or.inl rfl⟩)
            simp [seqT, hEff, hLk, hChk]
          | ok bkvs =>
            cases hItem : getItemDict bkvs with
            | error e =>
              refine Or.inr (Or.inr ⟨broadcastApiUrl c bid, [], ?_, Or.inl rfl⟩)
              simp [seqT, hEff, hLk, hChk, hItem]
            | ok ikvs =>
              have hrt := resolveHLSUrls_trace env bkvs
                (pyEqStr (dictLookup ikvs "liveStatus") "LIVE")
              cases hres : resolveHLSUrls env bkvs
                  (pyEqStr (dictLookup ikvs "liveStatus") "LIVE") with
              | mk rr rt =>
                rw [hres] at hrt
                simp only [] at hrt
                cases rr with
                | error e =>
                  rcases hrt with hrt | hrt <;> subst hrt
                  · refine Or.inr (Or.inr ⟨broadcastApiUrl c bid, [], ?_, Or.inl rfl⟩)
                    simp [seqT, hEff, hLk, hChk, hItem, hres]
                  · refine Or.inr (Or.inr ⟨broadcastApiUrl c bid,
                      [NetReq.lssApi (lssUrl bkvs
                        (pyEqStr (dictLookup ikvs "liveStatus") "LIVE"))], ?_,
                      Or.inr (Or.inl ⟨_, rfl⟩)⟩)
                    simp [seqT, hEff, hLk, hChk, hItem, hres]
                | ok hls =>
                  cases hMan : manifestOrErr ikvs hls with
                  | error e =>
                    rcases hrt with hrt | hrt <;> subst hrt
                    · refine Or.inr (Or.inr ⟨broadcastApiUrl c bid, [], ?_, Or.inl rfl⟩)
                      simp [seqT, hEff, hLk, hChk, hItem, hres, hMan]
                    · refine Or.inr (Or.inr ⟨broadcastApiUrl c bid,
                        [NetReq.lssApi (lssUrl bkvs
                          (pyEqStr (dictLookup ikvs "liveStatus") "LIVE"))], ?_,
                        Or.inr (Or.inl ⟨_, rfl⟩)⟩)
                      simp [seqT, hEff, hLk, hChk, hItem, hres, hMan]
                  | ok murl =>
                    have hft := formatsStep_trace env murl
                      (pyEqStr (dictLookup ikvs "liveStatus") "LIVE")
                    cases hfs : formatsStep env murl
                        (pyEqStr (dictLookup ikvs "liveStatus") "LIVE") with
                    | mk fr ft =>
                      rw [hfs] at hft
                      simp only [] at hft
                      subst hft
                      rcases hrt with hrt | hrt <;> subst hrt
                      · refine Or.inr (Or.inr ⟨broadcastApiUrl c bid,
                          [NetReq.m3u8 murl], ?_,
                          Or.inr (Or.inr (Or.inl ⟨murl, rfl⟩))⟩)
                        cases fr <;>
                          simp [seqT, hEff, hLk, hChk, hItem, hres, hMan, hfs]
                      · refine Or.inr (Or.inr ⟨broadcastApiUrl c bid,
                          [NetReq.lssApi (lssUrl bkvs
                            (pyEqStr (dictLookup ikvs "liveStatus") "LIVE")),
                           NetReq.m3u8 murl], ?_,
                          Or.inr (Or.inr (Or.inr ⟨_, murl, rfl⟩))⟩)
                        cases fr <;>
                          simp [seqT, hEff, hLk, hChk, hItem, hres, hMan, hfs]

/-! ## Helpers for the claim theorems -/

theorem buildInfoDict_ok_fields {env : Env} {cid vid : String}
    {bkvs ikvs : List (String × PyVal)} {il : Bool} {fmts : List PyVal}
    {r : InfoDict} (h : buildInfoDict env cid vid bkvs ikvs il fmts = .ok r) :
    r.id = vid ∧
    r.description = pyOr (dictLookup bkvs "description") (optStrToPy env.ogDescription) ∧
    r.thumbnail = pyOr (tryGetStr (.dict ikvs) "thumbnailURLs" "large1x1")
      (optStrToPy env.ogThumbnail) ∧
    r.timestamp = intOrNonePy (dictLookup ikvs "createdAt") ∧
    r.duration = dictLookup ikvs "archiveDuration" ∧
    r.uploader = tryGetStr (.dict ikvs) "channel" "name" ∧
    r.uploader_id = cid ∧
    r.uploader_url = "https://live.line.me/channels/" ++ cid ∧
    r.view_count = intOrNonePy (dictLookup ikvs "viewerCount") ∧
    r.comment_count = intOrNonePy (dictLookup ikvs "chatCount") ∧
    r.formats = fmts ∧
    r.is_live = il ∧
    (il = false → r.title = pyOr (dictLookup ikvs "title") (optStrToPy env.ogTitle)) ∧
    (il = true → ∃ s, pyOr (dictLookup ikvs "title") (optStrToPy env.ogTitle) = .str s ∧
       r.title = .str (s ++ " " ++ env.nowStr)) := by
  unfold buildInfoDict at h
  simp only [] at h
  split at h
  · simp at h
  · rename_i title htit
    simp only [Except.ok.injEq] at h
    subst h
    split at htit
    · rename_i hil
      split at htit
      · rename_i s hstr
        simp only [Except.ok.injEq] at htit
        refine ⟨rfl, rfl, rfl, rfl, rfl, rfl, rfl, rfl, rfl, rfl, rfl, rfl,
          ?_, ?_⟩
        · intro hcon
          rw [hil] at hcon
          simp at hcon
        · intro _
          exact ⟨s, hstr, htit.symm⟩
      · simp at htit
    · rename_i hil
      simp only [Except.ok.injEq] at htit
      refine ⟨rfl, rfl, rfl, rfl, rfl, rfl, rfl, rfl, rfl, rfl, rfl, rfl,
        ?_, ?_⟩
      · intro _
        exact htit.symm
      · intro hcon
        rw [hcon] at hil
        simp at hil

theorem checkBroadcastInfo_notfound {binfo : PyVal}
    (h : binfo = .none ∨ pyContainsStr binfo "item" = .ok false) :
    checkBroadcastInfo binfo = .error (.extractorError "Broadcast not found" true) := by
  rcases h with h | h
  · subst h
    rfl
  · unfold checkBroadcastInfo
    split
    · rfl
    · rw [h]

theorem dictLookup_key_mem {bkvs : List (String × PyVal)} {k : String}
    (h : dictLookup bkvs k ≠ .none) : bkvs.any (fun p => p.1 = k) = true := by
  induction bkvs with
  | nil => simp [dictLookup] at h
  | cons p rest ih =>
    obtain ⟨k', v⟩ := p
    by_cases hk : k' = k
    · simp [hk]
    · rw [dictLookup] at h
      simp only [hk, if_false] at h
      simp [hk, ih h]

theorem checkBroadcastInfo_dict_ok {bkvs : List (String × PyVal)}
    (h : dictLookup bkvs "item" ≠ .none) :
    checkBroadcastInfo (.dict bkvs) = .ok bkvs := by
  simp [checkBroadcastInfo, pyContainsStr, dictLookup_key_mem h]

theorem getItemDict_of_lookup {bkvs ikvs : List (String × PyVal)}
    (h : dictLookup bkvs "item" = .dict ikvs) : getItemDict bkvs = .ok ikvs := by
  unfold getItemDict
  rw [h]

/-- Characterizes a successful redirect resolution: the link type was
re-read from the resolved URL as `broadcast` and the broadcast id was
re-extracted there. -/
theorem effBroadcastId_upcoming_ok {env : Env} {b0 bid : String}
    (h : effBroadcastId env "upcoming" b0 = .ok bid) :
    ∃ c1 b1, matchVALIDAt env.resolvedUrl.toList = some (c1, "broadcast", b1) ∧
      bid = b1 := by
  unfold effBroadcastId at h
  split at h
  · split at h
    · simp at h
    · rename_i c1' lt1 x1 hsr
      split at h
      · simp at h
      · rename_i hlt1
        split at h
        · simp at h
        · rename_i c1 lt2 b1 hmr
          simp only [Except.ok.injEq] at h
          have hsr' := searchVALID_of_matchAt hmr
          rw [hsr] at hsr'
          simp only [Option.some.injEq, Prod.mk.injEq] at hsr'
          refine ⟨c1, b1, ?_, h.symm⟩
          have hlt1' : lt1 = "broadcast" := not_not.mp hlt1
          rw [hmr, ← hsr'.2.1, hlt1']
  · rename_i hne
    exact absurd rfl hne

theorem effBroadcastId_not_upcoming {env : Env} {lt b0 : String}
    (h : lt ≠ "upcoming") : effBroadcastId env lt b0 = .ok b0 := by
  unfold effBroadcastId
  rw [if_neg h]

theorem pyEqStr_eq_true_iff (v : PyVal) (s : String) :
    pyEqStr v s = true ↔ v = .str s := by
  cases v <;> simp [pyEqStr]

theorem intOrNonePy_shape (v : PyVal) :
    intOrNonePy v = .none ∨ ∃ n, intOrNonePy v = .int n := by
  unfold intOrNonePy
  split
  · right
    exact ⟨_, rfl⟩
  · left
    rfl

/-- `lookupBroadcastInfo` never reads the resolved URL. -/
theorem lookupBroadcastInfo_irrel (env : Env) (u' : String) :
    lookupBroadcastInfo { env with resolvedUrl := u' } = lookupBroadcastInfo env := rfl

/-- `resolveHLSUrls` never reads the resolved URL. -/
theorem resolveHLSUrls_irrel (env : Env) (u' : String)
    (bkvs : List (String × PyVal)) (il : Bool) :
    resolveHLSUrls { env with resolvedUrl := u' } bkvs il =
      resolveHLSUrls env bkvs il := rfl

/-- `formatsStep` never reads the resolved URL. -/
theorem formatsStep_irrel (env : Env) (u' : String) (murl : PyVal) (il : Bool) :
    formatsStep { env with resolvedUrl := u' } murl il = formatsStep env murl il := rfl

/-- `buildInfoDict` never reads the resolved URL. -/
theorem buildInfoDict_irrel (env : Env) (u' : String) (cid vid : String)
    (bkvs ikvs : List (String × PyVal)) (il : Bool) (fmts : List PyVal) :
    buildInfoDict { env with resolvedUrl := u' } cid vid bkvs ikvs il fmts =
      buildInfoDict env cid vid bkvs ikvs il fmts := rfl

/-! ## Claim theorems -/

/-- C1: every URL accepted by the extractor matches the fixed pattern
`https?://live.line.me/channels/<digits>/(broadcast|upcoming)/<digits>`
(the two dots being unescaped regex dots), the parser extracts the channel
id, a link type that is `broadcast` or `upcoming`, and the broadcast id as
the corresponding groups, and the canonical video identity of a successful
extraction is the composite `<channel id>_<broadcast id>` (with the
broadcast id re-extracted after a redirect for `upcoming` links). -/
theorem C1_url_parse {url c t b : String}
    (h : matchVALIDAt url.toList = some (c, t, b)) :
    (t = "broadcast" ∨ t = "upcoming") ∧
    c ≠ "" ∧ (∀ ch ∈ c.toList, ch.isDigit) ∧
    b ≠ "" ∧ (∀ ch ∈ b.toList, ch.isDigit) ∧
    (∃ sopt c1 c2 rest, (sopt = [] ∨ sopt = [ 's' ]) ∧ ¬ c1 = '\n' ∧ ¬ c2 = '\n' ∧
      url.toList = "http".toList ++ sopt ++ "://live".toList ++ [c1] ++
        "line".toList ++ [c2] ++ "me/channels/".toList ++ c.toList ++ [ '/' ] ++
        t.toList ++ [ '/' ] ++ b.toList ++ rest) ∧
    (∀ env r tr, realExtract env url = (.ok r, tr) →
       ∃ beff, r.id = c ++ "_" ++ beff ∧ (t = "broadcast" → beff = b)) := by
  obtain ⟨ht, hcne, hcdig, hbne, hbdig, dec⟩ := matchVALIDAt_sound h
  refine ⟨ht, ?_, hcdig, ?_, hbdig, dec, ?_⟩
  · intro hc
    rw [hc] at hcne
    exact hcne rfl
  · intro hb
    rw [hb] at hbne
    exact hbne rfl
  · intro env r tr hrun
    obtain ⟨c', lt', b0', bid, bkvs, ikvs, hls, murl, lssTr, fmts,
      hm', hB, hD, hI, hG, hH, hm3u8, hfne, hbuild, htr⟩ :=
      realExtract_ok_inversion hrun
    rw [h] at hm'
    simp only [Option.some.injEq, Prod.mk.injEq] at hm'
    obtain ⟨hc', hlt', hb0'⟩ := hm'
    subst hc'
    subst hlt'
    subst hb0'
    refine ⟨bid, (buildInfoDict_ok_fields hbuild).1, ?_⟩
    intro htb
    rw [htb] at hB
    rw [effBroadcastId_not_upcoming (by decide)] at hB
    simpa using hB.symm

/-- C6: a successful extraction returns a record with exactly the
data-model fields: the composite id with the original channel id as
uploader id and url, the descriptive fields with their OpenGraph
fallbacks, the `int_or_none`-normalized numeric fields, the raw duration,
the liveness flag, and the format list obtained from the external M3U8
parser. -/
theorem C6_result_record {env : Env} {url : String} {r : InfoDict}
    {tr : List NetReq} (h : realExtract env url = (.ok r, tr)) :
    (∃ (cid bid : String) (bkvs ikvs : List (String × PyVal)),
      r.id = cid ++ "_" ++ bid ∧
      r.uploader_id = cid ∧
      r.uploader_url = "https://live.line.me/channels/" ++ cid ∧
      r.description = pyOr (dictLookup bkvs "description") (optStrToPy env.ogDescription) ∧
      r.thumbnail = pyOr (tryGetStr (.dict ikvs) "thumbnailURLs" "large1x1")
        (optStrToPy env.ogThumbnail) ∧
      r.timestamp = intOrNonePy (dictLookup ikvs "createdAt") ∧
      r.duration = dictLookup ikvs "archiveDuration" ∧
      r.uploader = tryGetStr (.dict ikvs) "channel" "name" ∧
      r.view_count = intOrNonePy (dictLookup ikvs "viewerCount") ∧
      r.comment_count = intOrNonePy (dictLookup ikvs "chatCount") ∧
      r.is_live = pyEqStr (dictLookup ikvs "liveStatus") "LIVE" ∧
      (∃ murl, env.m3u8 murl r.is_live = some r.formats ∧ r.formats ≠ [])) ∧
    r = ⟨r.id, r.title, r.description, r.thumbnail, r.timestamp, r.duration,
      r.uploader, r.uploader_id, r.uploader_url, r.view_count, r.comment_count,
      r.formats, r.is_live⟩ := by
  obtain ⟨c, lt, b0, bid, bkvs, ikvs, hls, murl, lssTr, fmts,
    hm, hB, hD, hItem, hG, hH, hm3u8, hfne, hbuild, htr⟩ :=
    realExtract_ok_inversion h
  obtain ⟨f1, f2, f3, f4, f5, f6, f7, f8, f9, f10, f11, f12, _⟩ :=
    buildInfoDict_ok_fields hbuild
  refine ⟨⟨c, bid, bkvs, ikvs, f1, f7, f8, f2, f3, f4, f5, f6, f9, f10, f12, ?_⟩, rfl⟩
  refine ⟨murl, ?_, ?_⟩
  · rw [f12, f11]
    exact hm3u8
  · rw [f11]
    exact hfne

/-- The extractor object threaded through an extraction: `_real_extract`
contains no assignment to `self` and no global mutation, so the state of
the extractor — of any type — passes through unchanged and the call
reduces to the pure function `realExtract`. -/
def realExtractSt {σ : Type} (st : σ) (env : Env) (url : String) :
    σ × (Res InfoDict × List NetReq) := (st, realExtract env url)

/-- C7: an extraction call builds and returns a single transient record
without mutating the extractor: the threaded state is returned unchanged,
and a second run on the same inputs (with the state left by the first)
produces exactly the same outcome. -/
theorem C7_no_mutation {σ : Type} (st : σ) (env : Env) (url : String) :
    (realExtractSt st env url).1 = st ∧
    realExtractSt (realExtractSt st env url).1 env url = realExtractSt st env url :=
  ⟨rfl, rfl⟩

/-- C8: for an `upcoming` link the composite id keeps the channel id of
the original input URL — only the broadcast id is re-extracted from the
resolved URL — and `uploader_id`/`uploader_url` also come from the
original channel id, even when the redirect lands on a different
channel. -/
theorem C8_channel_from_original {env : Env} {url : String} {r : InfoDict}
    {tr : List NetReq} {c b0 : String}
    (hrun : realExtract env url = (.ok r, tr))
    (hm : matchVALIDAt url.toList = some (c, "upcoming", b0)) :
    ∃ c1 b1, matchVALIDAt env.resolvedUrl.toList = some (c1, "broadcast", b1) ∧
      r.uploader_id = c ∧
      r.uploader_url = "https://live.line.me/channels/" ++ c ∧
      r.id = c ++ "_" ++ b1 := by
  obtain ⟨c', lt', b0', bid, bkvs, ikvs, hls, murl, lssTr, fmts,
    hm', hB, hD, hItem, hG, hH, hm3u8, hfne, hbuild, htr⟩ :=
    realExtract_ok_inversion hrun
  rw [hm] at hm'
  simp only [Option.some.injEq, Prod.mk.injEq] at hm'
  obtain ⟨hc', hlt', hb0'⟩ := hm'
  subst hc'
  subst hb0'
  rw [← hlt'] at hB
  obtain ⟨c1, b1, hres, hbid⟩ := effBroadcastId_upcoming_ok hB
  obtain ⟨f1, _, _, _, _, _, f7, f8, _⟩ := buildInfoDict_ok_fields hbuild
  refine ⟨c1, b1, hres, f7, f8, ?_⟩
  rw [f1, hbid]

/-- C9: the returned `timestamp`, `view_count` and `comment_count` are the
`int_or_none` normalizations of the item's `createdAt`, `viewerCount` and
`chatCount`, and hence each is an integer or `None`. -/
theorem C9_int_or_none_fields {env : Env} {url : String} {r : InfoDict}
    {tr : List NetReq} (h : realExtract env url = (.ok r, tr)) :
    ∃ ikvs : List (String × PyVal),
      r.timestamp = intOrNonePy (dictLookup ikvs "createdAt") ∧
      r.view_count = intOrNonePy (dictLookup ikvs "viewerCount") ∧
      r.comment_count = intOrNonePy (dictLookup ikvs "chatCount") ∧
      (r.timestamp = .none ∨ ∃ n, r.timestamp = .int n) ∧
      (r.view_count = .none ∨ ∃ n, r.view_count = .int n) ∧
      (r.comment_count = .none ∨ ∃ n, r.comment_count = .int n) := by
  obtain ⟨c, lt, b0, bid, bkvs, ikvs, hls, murl, lssTr, fmts,
    hm, hB, hD, hItem, hG, hH, hm3u8, hfne, hbuild, htr⟩ :=
    realExtract_ok_inversion h
  obtain ⟨_, _, _, f4, _, _, _, _, f9, f10, _⟩ := buildInfoDict_ok_fields hbuild
  refine ⟨ikvs, f4, f9, f10, ?_, ?_, ?_⟩
  · rw [f4]
    exact intOrNonePy_shape _
  · rw [f9]
    exact intOrNonePy_shape _
  · rw [f10]
    exact intOrNonePy_shape _

/-- C10: the returned `is_live` flag is true exactly when the item's
`liveStatus` is the string `LIVE`; when live, the returned title is the
live-wrapped form of the extracted title; and any LSS request made during
the run uses the `live` endpoint when live and `vod` otherwise. -/
theorem C10_liveness {env : Env} {url : String} {r : InfoDict}
    {tr : List NetReq} (h : realExtract env url = (.ok r, tr)) :
    ∃ (bkvs ikvs : List (String × PyVal)),
      dictLookup bkvs "item" = .dict ikvs ∧
      (r.is_live = true ↔ dictLookup ikvs "liveStatus" = .str "LIVE") ∧
      (r.is_live = true → ∃ s,
        pyOr (dictLookup ikvs "title") (optStrToPy env.ogTitle) = .str s ∧
        r.title = .str (s ++ " " ++ env.nowStr)) ∧
      (∀ u, NetReq.lssApi u ∈ tr →
        u = "https://lssapi.line-apps.com/v1/" ++
          (if r.is_live then "live" else "vod") ++
          "/playInfo?contentId=" ++ pyStr (dictLookup bkvs "lsaPath")) := by
  obtain ⟨c, lt, b0, bid, bkvs, ikvs, hls, murl, lssTr, fmts,
    hm, hB, hD, hItem, hG, hH, hm3u8, hfne, hbuild, htr⟩ :=
    realExtract_ok_inversion h
  obtain ⟨_, _, _, _, _, _, _, _, _, _, _, f12, _, ftitle⟩ :=
    buildInfoDict_ok_fields hbuild
  refine ⟨bkvs, ikvs, hItem, ?_, ?_, ?_⟩
  · rw [f12]
    exact pyEqStr_eq_true_iff _ _
  · intro hl
    exact ftitle (f12 ▸ hl)
  · intro u hu
    have hlssTr := resolveHLSUrls_trace env bkvs
      (pyEqStr (dictLookup ikvs "liveStatus") "LIVE")
    rw [hG] at hlssTr
    simp only [] at hlssTr
    rw [htr] at hu
    simp only [List.mem_cons, List.mem_append, List.mem_singleton] at hu
    rcases hu with hu | hu | hu | hu
    · exact absurd hu (by simp)
    · exact absurd hu (by simp)
    · rcases hlssTr with hl | hl
      · rw [hl] at hu
        simp at hu
      · rw [hl] at hu
        simp only [List.mem_singleton, NetReq.lssApi.injEq] at hu
        rw [hu]
        unfold lssUrl
        rw [← f12]
    · exact absurd hu (by simp)

theorem realExtract_trace_start {env : Env} {url c lt b0 bid : String}
    (hm : matchVALIDAt url.toList = some (c, lt, b0))
    (heff : effBroadcastId env lt b0 = .ok bid) :
    ∃ rest, (realExtract env url).2 =
      NetReq.page url :: NetReq.broadcastApi (broadcastApiUrl c bid) :: rest := by
  unfold realExtract
  simp only [searchVALID_of_matchAt hm, hm]
  simp only [seqT, heff]
  exact ⟨_, rfl⟩

/-- C2: the resolved URL is consulted exactly for `upcoming` links — for a
`broadcast` link the run does not depend on the resolved URL at all; for
an `upcoming` link, if the resolved URL's link type is not `broadcast`
extraction fails with the expected `Broadcast not found`, and otherwise
the broadcast id is re-extracted from the resolved URL (visible in the
broadcast-API request that follows). -/
theorem C2_redirect {env : Env} {url c lt b0 : String}
    (h : matchVALIDAt url.toList = some (c, lt, b0)) :
    (lt ≠ "upcoming" → ∀ u' : String,
      realExtract { env with resolvedUrl := u' } url = realExtract env url) ∧
    (∀ c1 lt1 b1, lt = "upcoming" →
      searchVALID env.resolvedUrl.toList = some (c1, lt1, b1) →
      lt1 ≠ "broadcast" →
      (realExtract env url).1 = .error (.extractorError "Broadcast not found" true)) ∧
    (∀ c1 lt1 b1, lt = "upcoming" →
      matchVALIDAt env.resolvedUrl.toList = some (c1, lt1, b1) →
      lt1 = "broadcast" →
      ∃ rest, (realExtract env url).2 =
        NetReq.page url :: NetReq.broadcastApi (broadcastApiUrl c b1) :: rest) := by
  have hs := searchVALID_of_matchAt h
  refine ⟨?_, ?_, ?_⟩
  · intro hlt u'
    unfold realExtract
    simp only [hs, h]
    rw [@effBroadcastId_not_upcoming { env with resolvedUrl := u' } lt b0 hlt,
        @effBroadcastId_not_upcoming env lt b0 hlt]
    simp only [lookupBroadcastInfo_irrel, resolveHLSUrls_irrel, formatsStep_irrel,
      buildInfoDict_irrel]
  · intro c1 lt1 b1 hlt hsr hlt1
    subst hlt
    have hsr2 : searchVALID env.resolvedUrl.data = some (c1, lt1, b1) := hsr
    have heff : effBroadcastId env "upcoming" b0 =
        .error (.extractorError "Broadcast not found" true) := by
      simp [effBroadcastId, hsr2, hlt1]
    unfold realExtract
    simp only [hs, h]
    simp [seqT, heff]
  · intro c1 lt1 b1 hlt hmr hlt1
    subst hlt
    subst hlt1
    have hsr2 : searchVALID env.resolvedUrl.data = some (c1, "broadcast", b1) :=
      searchVALID_of_matchAt hmr
    have hmr2 : matchVALIDAt env.resolvedUrl.data = some (c1, "broadcast", b1) := hmr
    have heff : effBroadcastId env "upcoming" b0 = .ok b1 := by
      simp [effBroadcastId, hsr2, hmr2]
    exact realExtract_trace_start h heff

/-- C3: broadcast-info lookup order — the JSON API result is used when it
is truthy and has an `item` key; when the call failed, was falsy, or
lacked `item`, the embedded `data-broadcast` page attribute is parsed
instead; and when the combined result is still `None` or lacks `item`, the
run fails with the expected `Broadcast not found` after having issued the
API request first. -/
theorem C3_info_lookup_chain (env : Env) :
    (∀ v, env.broadcastApiResp = Option.some v → pyTruthy v = true →
      pyContainsStr v "item" = .ok true → lookupBroadcastInfo env = .ok v) ∧
    (env.broadcastApiResp = Option.none →
      lookupBroadcastInfo env = dataBroadcastInfo env) ∧
    (∀ v, env.broadcastApiResp = Option.some v → pyTruthy v = false →
      lookupBroadcastInfo env = dataBroadcastInfo env) ∧
    (∀ v, env.broadcastApiResp = Option.some v →
      pyContainsStr v "item" = .ok false →
      lookupBroadcastInfo env = dataBroadcastInfo env) ∧
    (∀ url c lt b0 bid binfo,
      matchVALIDAt url.toList = some (c, lt, b0) →
      effBroadcastId env lt b0 = .ok bid →
      lookupBroadcastInfo env = .ok binfo →
      (binfo = .none ∨ pyContainsStr binfo "item" = .ok false) →
      (realExtract env url).1 = .error (.extractorError "Broadcast not found" true) ∧
      ∃ rest, (realExtract env url).2 =
        NetReq.page url :: NetReq.broadcastApi (broadcastApiUrl c bid) :: rest) := by
  refine ⟨?_, ?_, ?_, ?_, ?_⟩
  · intro v hv htr hcont
    simp [lookupBroadcastInfo, apiRespVal, hv, htr, hcont]
  · intro hnone
    simp [lookupBroadcastInfo, apiRespVal, hnone, pyTruthy]
  · intro v hv htr
    simp [lookupBroadcastInfo, apiRespVal, hv, htr]
  · intro v hv hcont
    by_cases htr : pyTruthy v = true
    · simp [lookupBroadcastInfo, apiRespVal, hv, htr, hcont]
    · simp [lookupBroadcastInfo, apiRespVal, hv, htr]
  · intro url c lt b0 bid binfo hm heff hlk hbad
    have hchk := checkBroadcastInfo_notfound hbad
    constructor
    · unfold realExtract
      simp only [searchVALID_of_matchAt hm, hm]
      simp [seqT, heff, hlk, hchk]
    · exact realExtract_trace_start hm heff

/-- C4: manifest resolution consults `liveHLSURLs`, then `archivedHLSURLs`,
then the LSS API with `contentId = lsaPath` on the `live` endpoint when
live and `vod` otherwise — each later source only when the previous one is
`None` or lacks `abr` — and when all three candidates lack `abr`, the run
fails with the expected error naming the item's archive status. -/
theorem C4_manifest_chain (env : Env) (bkvs ikvs : List (String × PyVal)) (il : Bool) :
    (abrMissing (dictLookup bkvs "liveHLSURLs") = .ok false →
      resolveHLSUrls env bkvs il = (.ok (dictLookup bkvs "liveHLSURLs"), [])) ∧
    (abrMissing (dictLookup bkvs "liveHLSURLs") = .ok true →
      abrMissing (dictLookup bkvs "archivedHLSURLs") = .ok false →
      resolveHLSUrls env bkvs il = (.ok (dictLookup bkvs "archivedHLSURLs"), [])) ∧
    (abrMissing (dictLookup bkvs "liveHLSURLs") = .ok true →
      abrMissing (dictLookup bkvs "archivedHLSURLs") = .ok true →
      resolveHLSUrls env bkvs il = (lssHLSUrls env, [NetReq.lssApi (lssUrl bkvs il)])) ∧
    (lssUrl bkvs il = "https://lssapi.line-apps.com/v1/" ++
      (if il then "live" else "vod") ++ "/playInfo?contentId=" ++
      pyStr (dictLookup bkvs "lsaPath")) ∧
    (∀ url c lt b0 bid hls lssTr,
      matchVALIDAt url.toList = some (c, lt, b0) →
      effBroadcastId env lt b0 = .ok bid →
      lookupBroadcastInfo env = .ok (.dict bkvs) →
      dictLookup bkvs "item" = .dict ikvs →
      resolveHLSUrls env bkvs (pyEqStr (dictLookup ikvs "liveStatus") "LIVE") =
        (.ok hls, lssTr) →
      abrMissing hls = .ok true →
      (realExtract env url).1 = .error (.extractorError
        ("Broadcast has an archive status of " ++
          pyStr (dictLookup ikvs "archiveStatus")) true)) := by
  refine ⟨?_, ?_, ?_, rfl, ?_⟩
  · intro h1
    simp [resolveHLSUrls, h1]
  · intro h1 h2
    simp [resolveHLSUrls, h1, h2]
  · intro h1 h2
    cases h3 : lssHLSUrls env <;> simp [resolveHLSUrls, h1, h2, h3]
  · intro url c lt b0 bid hls lssTr hm heff hlk hitem hres habr
    have hchk : checkBroadcastInfo (.dict bkvs) = .ok bkvs :=
      checkBroadcastInfo_dict_ok (by rw [hitem]; simp)
    have hgi : getItemDict bkvs = .ok ikvs := getItemDict_of_lookup hitem
    have hman : manifestOrErr ikvs hls = .error (.extractorError
        ("Broadcast has an archive status of " ++
          pyStr (dictLookup ikvs "archiveStatus")) true) := by
      simp [manifestOrErr, habr]
    unfold realExtract
    simp only [searchVALID_of_matchAt hm, hm]
    simp [seqT, heff, hlk, hchk, hgi, hres, hman]

/-- C5: every `ExtractorError` raised by the extractor's own code is
expected and carries one of exactly two messages (`Broadcast not found`,
or `Broadcast has an archive status of <status>`), and no network source
is ever retried: the request trace of any run has no duplicates. -/
theorem C5_errors_and_no_retry (env : Env) (url : String) :
    (∀ m e, (realExtract env url).1 = .error (.extractorError m e) →
      e = true ∧ (m = "Broadcast not found" ∨
        ∃ s, m = "Broadcast has an archive status of " ++ s)) ∧
    (realExtract env url).2.Nodup := by
  refine ⟨fun m e h => realExtract_expected_err h, ?_⟩
  rcases realExtract_trace_shape env url with h | h | ⟨a, t2, h, ht2⟩
  · rw [h]
    exact List.nodup_nil
  · rw [h]
    simp
  · rw [h]
    rcases ht2 with h2 | ⟨l, h2⟩ | ⟨mu, h2⟩ | ⟨l, mu, h2⟩ <;> subst h2 <;> simp

/-! ## Concrete runs exercising the theorems -/

/-- A broadcast item as the API returns it for an archived broadcast. -/
def demoItem : List (String × PyVal) :=
  [("liveStatus", .str "FINISHED"), ("title", .str "Demo title"),
   ("createdAt", .int 1522506855), ("viewerCount", .str "123"),
   ("chatCount", .none), ("archiveDuration", .int 1713),
   ("channel", .dict [("name", .str "Demo channel")]),
   ("archiveStatus", .str "ARCHIVED")]

/-- An environment for an archived broadcast whose API lookup succeeds and
whose page redirects (relevant only for upcoming links) to a broadcast on
a different channel. -/
def demoEnv : Env :=
  { resolvedUrl := "https://live.line.me/channels/99/broadcast/8656158"
    broadcastApiResp := Option.some (.dict
      [("item", .dict demoItem),
       ("archivedHLSURLs", .dict [("abr", .str "https://m/abr.m3u8")]),
       ("description", .str "Demo description")])
    dataBroadcast := Option.none
    parseJson := fun _ => Option.none
    lssResp := Option.none
    m3u8 := fun _ _ => Option.some [PyVal.str "fmt"]
    ogTitle := Option.none
    ogDescription := Option.none
    ogThumbnail := Option.none
    nowStr := "2026-10-12 00:00" }

def demoUrl : String := "https://live.line.me/channels/21/broadcast/7862238"

def demoUpUrl : String := "https://live.line.me/channels/21/upcoming/8694200"

/-- The item of a currently live broadcast with no archive yet. -/
def liveItem : List (String × PyVal) :=
  [("liveStatus", .str "LIVE"), ("title", .str "Now live"),
   ("archiveStatus", .none)]

/-- The broadcast info of a live broadcast: no direct HLS URLs, only an
`lsaPath` for the LSS API. -/
def liveBkvs : List (String × PyVal) :=
  [("item", .dict liveItem), ("lsaPath", .str "abc/def")]

/-- A live-broadcast environment whose manifest comes from the LSS API. -/
def liveEnv : Env :=
  { demoEnv with
    broadcastApiResp := Option.some (.dict liveBkvs)
    lssResp := Option.some (.dict
      [("playUrls", .dict [("abr", .str "https://m/live.m3u8")])]) }

/-- Like `liveEnv` but the LSS call fails too: no manifest anywhere. -/
def lssFailEnv : Env := { liveEnv with lssResp := Option.none }

/-- API download fails and the page has no `data-broadcast` attribute. -/
def errEnv : Env := { demoEnv with broadcastApiResp := Option.none }

/-- The upcoming link resolves to another upcoming link. -/
def upErrEnv : Env :=
  { demoEnv with resolvedUrl := "https://live.line.me/channels/21/upcoming/1" }

/-- The record extracted from `demoEnv` for the broadcast link. -/
def demoRecord : InfoDict :=
  { id := "21_7862238", title := .str "Demo title",
    description := .str "Demo description", thumbnail := .none,
    timestamp := .int 1522506855, duration := .int 1713,
    uploader := .str "Demo channel", uploader_id := "21",
    uploader_url := "https://live.line.me/channels/21",
    view_count := .int 123, comment_count := .none,
    formats := [.str "fmt"], is_live := false }

def demoTrace : List NetReq :=
  [.page demoUrl,
   .broadcastApi "https://live-api.line-apps.com/app/v2/channel/21/broadcast/7862238",
   .m3u8 (.str "https://m/abr.m3u8")]

/-- The record extracted from `demoEnv` for the upcoming link: same
broadcast info, but the id re-extracted from the resolved URL. -/
def upRecord : InfoDict := { demoRecord with id := "21_8656158" }

def upTrace : List NetReq :=
  [.page demoUpUrl,
   .broadcastApi "https://live-api.line-apps.com/app/v2/channel/21/broadcast/8656158",
   .m3u8 (.str "https://m/abr.m3u8")]

/-- The record extracted from `liveEnv`. -/
def liveRecord : InfoDict :=
  { id := "21_7862238", title := .str "Now live 2026-10-12 00:00",
    description := .none, thumbnail := .none, timestamp := .none,
    duration := .none, uploader := .none, uploader_id := "21",
    uploader_url := "https://live.line.me/channels/21",
    view_count := .none, comment_count := .none,
    formats := [.str "fmt"], is_live := true }

def liveTrace : List NetReq :=
  [.page demoUrl,
   .broadcastApi "https://live-api.line-apps.com/app/v2/channel/21/broadcast/7862238",
   .lssApi "https://lssapi.line-apps.com/v1/live/playInfo?contentId=abc/def",
   .m3u8 (.str "https://m/live.m3u8")]

theorem demo_run : realExtract demoEnv demoUrl = (.ok demoRecord, demoTrace) := rfl

theorem up_run : realExtract demoEnv demoUpUrl = (.ok upRecord, upTrace) := rfl

theorem live_run : realExtract liveEnv demoUrl = (.ok liveRecord, liveTrace) := rfl

/-! ## Witnesses: the claim theorems applied at the concrete runs -/

theorem C1_witness :
    ∃ beff, demoRecord.id = "21" ++ "_" ++ beff ∧
      ("broadcast" = "broadcast" → beff = "7862238") :=
  (C1_url_parse (show matchVALIDAt demoUrl.toList =
      some ("21", "broadcast", "7862238") from rfl)).2.2.2.2.2.2 demoEnv demoRecord
    demoTrace demo_run

theorem C2_witness :
    (realExtract upErrEnv demoUpUrl).1 =
      .error (.extractorError "Broadcast not found" true) :=
  (C2_redirect (show matchVALIDAt demoUpUrl.toList =
      some ("21", "upcoming", "8694200") from rfl)).2.1 "21" "upcoming" "1" rfl
    (by rfl) (by decide)

theorem C3_witness :
    (realExtract errEnv demoUrl).1 =
      .error (.extractorError "Broadcast not found" true) ∧
    ∃ rest, (realExtract errEnv demoUrl).2 =
      NetReq.page demoUrl ::
        NetReq.broadcastApi (broadcastApiUrl "21" "7862238") :: rest :=
  (C3_info_lookup_chain errEnv).2.2.2.2 demoUrl "21" "broadcast" "7862238"
    "7862238" PyVal.none (by rfl) (by rfl) (by rfl) (Or.inl rfl)

theorem C4_witness :
    (realExtract lssFailEnv demoUrl).1 = .error (.extractorError
      ("Broadcast has an archive status of " ++
        pyStr (dictLookup liveItem "archiveStatus")) true) :=
  (C4_manifest_chain lssFailEnv liveBkvs liveItem true).2.2.2.2 demoUrl "21"
    "broadcast" "7862238" "7862238" PyVal.none
    [NetReq.lssApi "https://lssapi.line-apps.com/v1/live/playInfo?contentId=abc/def"]
    (by rfl) (by rfl) (by rfl) (by rfl) (by rfl) (by rfl)

theorem C5_witness :
    (true = true ∧ ("Broadcast not found" = "Broadcast not found" ∨
      ∃ s, "Broadcast not found" = "Broadcast has an archive status of " ++ s)) ∧
    (realExtract errEnv demoUrl).2.Nodup :=
  ⟨(C5_errors_and_no_retry errEnv demoUrl).1 "Broadcast not found" true (by rfl),
   (C5_errors_and_no_retry errEnv demoUrl).2⟩

theorem C6_witness :
    (∃ (cid bid : String) (bkvs ikvs : List (String × PyVal)),
      demoRecord.id = cid ++ "_" ++ bid ∧
      demoRecord.uploader_id = cid ∧
      demoRecord.uploader_url = "https://live.line.me/channels/" ++ cid ∧
      demoRecord.description =
        pyOr (dictLookup bkvs "description") (optStrToPy demoEnv.ogDescription) ∧
      demoRecord.thumbnail = pyOr (tryGetStr (.dict ikvs) "thumbnailURLs" "large1x1")
        (optStrToPy demoEnv.ogThumbnail) ∧
      demoRecord.timestamp = intOrNonePy (dictLookup ikvs "createdAt") ∧
      demoRecord.duration = dictLookup ikvs "archiveDuration" ∧
      demoRecord.uploader = tryGetStr (.dict ikvs) "channel" "name" ∧
      demoRecord.view_count = intOrNonePy (dictLookup ikvs "viewerCount") ∧
      demoRecord.comment_count = intOrNonePy (dictLookup ikvs "chatCount") ∧
      demoRecord.is_live = pyEqStr (dictLookup ikvs "liveStatus") "LIVE" ∧
      (∃ murl, demoEnv.m3u8 murl demoRecord.is_live = some demoRecord.formats ∧
        demoRecord.formats ≠ [])) ∧
    demoRecord = ⟨demoRecord.id, demoRecord.title, demoRecord.description,
      demoRecord.thumbnail, demoRecord.timestamp, demoRecord.duration,
      demoRecord.uploader, demoRecord.uploader_id, demoRecord.uploader_url,
      demoRecord.view_count, demoRecord.comment_count, demoRecord.formats,
      demoRecord.is_live⟩ :=
  C6_result_record demo_run

theorem C7_witness :
    (realExtractSt (42 : Nat) demoEnv demoUrl).1 = 42 ∧
    realExtractSt (realExtractSt (42 : Nat) demoEnv demoUrl).1 demoEnv demoUrl =
      realExtractSt (42 : Nat) demoEnv demoUrl :=
  C7_no_mutation 42 demoEnv demoUrl

theorem C8_witness :
    ∃ c1 b1, matchVALIDAt demoEnv.resolvedUrl.toList = some (c1, "broadcast", b1) ∧
      upRecord.uploader_id = "21" ∧
      upRecord.uploader_url = "https://live.line.me/channels/" ++ "21" ∧
      upRecord.id = "21" ++ "_" ++ b1 :=
  C8_channel_from_original up_run (by rfl)

theorem C9_witness :
    ∃ ikvs : List (String × PyVal),
      demoRecord.timestamp = intOrNonePy (dictLookup ikvs "createdAt") ∧
      demoRecord.view_count = intOrNonePy (dictLookup ikvs "viewerCount") ∧
      demoRecord.comment_count = intOrNonePy (dictLookup ikvs "chatCount") ∧
      (demoRecord.timestamp = .none ∨ ∃ n, demoRecord.timestamp = .int n) ∧
      (demoRecord.view_count = .none ∨ ∃ n, demoRecord.view_count = .int n) ∧
      (demoRecord.comment_count = .none ∨ ∃ n, demoRecord.comment_count = .int n) :=
  C9_int_or_none_fields demo_run

theorem C10_witness :
    ∃ (bkvs ikvs : List (String × PyVal)),
      dictLookup bkvs "item" = .dict ikvs ∧
      (liveRecord.is_live = true ↔ dictLookup ikvs "liveStatus" = .str "LIVE") ∧
      (liveRecord.is_live = true → ∃ s,
        pyOr (dictLookup ikvs "title") (optStrToPy liveEnv.ogTitle) = .str s ∧
        liveRecord.title = .str (s ++ " " ++ liveEnv.nowStr)) ∧
      (∀ u, NetReq.lssApi u ∈ liveTrace →
        u = "https://lssapi.line-apps.com/v1/" ++
          (if liveRecord.is_live then "live" else "vod") ++
          "/playInfo?contentId=" ++ pyStr (dictLookup bkvs "lsaPath")) :=
  C10_liveness live_run

end LineLive
